import Mathlib

/-!
# Verification of the Tsunami bytecode encoder/validator core

Shallow embedding of `src/Tsunami/src/Bytecode.cpp` (with the declarations of
`src/Tsunami/include/Bytecode.h`).  Byte buffers (`std::string`,
`std::vector<uint8_t>`) are embedded as `List Nat` whose elements are byte
values; machine-integer truncations (`uint8_t` casts, the `uint32_t` header
fields, `& 0xFF` masks) are written as explicit `% 256` / `% 2^32`.
`double` values are embedded as their IEEE-754 bit patterns (a `Nat` holding
the 64-bit pattern), exactly the data the encoder serializes.
-/

namespace Tsunami

/-- The 2^32 modulus of the `uint32_t` header fields. -/
def U32 : Nat := 4294967296

/-- Opcode constants used by the builder paths (`Bytecode.h`, `enum LuauOpcode`). -/
def LOP_LOADNIL : Nat := 1
def LOP_LOADB : Nat := 2
def LOP_LOADN : Nat := 3
def LOP_LOADK : Nat := 4
def LOP_NEWTABLE : Nat := 45
def LOP_SETLIST : Nat := 47

/-- Constant-pool tags used by the builder paths (`Bytecode.h`, `enum ConstantType`). -/
def LBC_CONSTANT_BOOLEAN : Nat := 1
def LBC_CONSTANT_NUMBER : Nat := 2
def LBC_CONSTANT_STRING : Nat := 3

/-- `hashBytecode` (`Bytecode.cpp` lines 12-19): 32-bit FNV-1a-style checksum.
`hash ^= data[i]; hash *= 16777619u` with `uint32_t` wraparound, seeded with
`2166136261u`. -/
def hashBytecode (data : List Nat) : Nat :=
  data.foldl (fun h b => ((h ^^^ b) * 16777619) % U32) 2166136261

/-- Little-endian base-128 emission loop of `writeVarInt` (`Bytecode.cpp`
lines 21-28): emits 7 value bits per byte, bit 7 set on every byte except the
last; runs at least once (`do`-`while`).  The loop is written as a structural
recursion on an iteration bound so that it computes inside the kernel; a
32-bit value needs at most five bytes (each step divides by 128), so the
bound of 5 used below is never exhausted. -/
def writeVarIntGo : Nat → Nat → List Nat
  | 0, value => [value % 128]
  | fuel + 1, value =>
      let byte := value % 128
      let rest := value / 128
      if rest = 0 then [byte] else (byte + 128) :: writeVarIntGo fuel rest

/-- `writeVarInt` (`Bytecode.cpp` lines 21-28): the parameter is `uint32_t`,
so the value is first truncated to 32 bits, after which five loop iterations
always suffice. -/
def writeVarInt (value : Nat) : List Nat :=
  writeVarIntGo 5 (value % U32)

/-- `encodeOpcode` (`Bytecode.cpp` lines 30-32): `(opcode * 227) & 0xFF`. -/
def encodeOpcode (opcode : Nat) : Nat :=
  (opcode * 227) % 256

/-- Little-endian serialization of a `uint32_t` value (layout of the packed
`LuauBytecodeHeader` fields). -/
def le32 (n : Nat) : List Nat :=
  [n % 256, n / 256 % 256, n / 65536 % 256, n / 16777216 % 256]

/-- The 8-byte little-endian serialization loop used for `double` constants
(`Bytecode.cpp` lines 176-181): `push_back(bits & 0xFF); bits >>= 8` eight
times, where `bits` is the IEEE-754 bit pattern of the value. -/
def le64 (bits : Nat) : List Nat :=
  [bits % 256, bits / 256 % 256, bits / 65536 % 256, bits / 16777216 % 256,
   bits / 4294967296 % 256, bits / 1099511627776 % 256,
   bits / 281474976710656 % 256, bits / 72057594037927936 % 256]

/-- Value of the 4 bytes starting at the head of a buffer, read as a
little-endian `uint32_t` (how the packed header's `u32` fields are read back);
missing bytes read as 0. -/
def le32val (l : List Nat) : Nat :=
  l.getD 0 0 + 256 * l.getD 1 0 + 65536 * l.getD 2 0 + 16777216 * l.getD 3 0

/-- Little-endian `uint32_t` read at byte offset `off` of a buffer. -/
def read32 (l : List Nat) (off : Nat) : Nat :=
  le32val (l.drop off)

/-- The header-patching epilogue shared verbatim by every builder
(`Bytecode.cpp`, e.g. lines 104-109): the buffer is the 12-byte packed
`LuauBytecodeHeader {version, flags, typesize, numbersize, hash, size}` with
`version=2, flags=0, typesize=8, numbersize=8`, followed by the payload;
`header.size = bytecode.size() - sizeof(header)` (a `size_t` stored into a
`uint32_t`, hence `% 2^32`) and
`header.hash = hashBytecode(data + sizeof(header), header.size)` are patched
in once the payload is complete. -/
def finalize (payload : List Nat) : List Nat :=
  let size := payload.length % U32
  let hash := hashBytecode (payload.take size)
  2 :: 0 :: 8 :: 8 :: (le32 hash ++ le32 size ++ payload)

/-- `CreatePushNil` (`Bytecode.cpp` lines 64-110). -/
def CreatePushNil : List Nat :=
  finalize
    (writeVarInt 0 ++ writeVarInt 1 ++
     writeVarInt 0 ++ writeVarInt 0 ++ writeVarInt 1 ++ writeVarInt 0 ++
     writeVarInt 1 ++
     [encodeOpcode LOP_LOADNIL, 0] ++
     writeVarInt 0 ++ writeVarInt 0 ++
     writeVarInt 0 ++ writeVarInt 0 ++ [0, 0])

/-- `CreatePushBoolean` (`Bytecode.cpp` lines 112-160). -/
def CreatePushBoolean (value : Bool) : List Nat :=
  finalize
    (writeVarInt 0 ++ writeVarInt 1 ++
     writeVarInt 1 ++ writeVarInt 0 ++ writeVarInt 0 ++ writeVarInt 0 ++
     writeVarInt 1 ++
     [encodeOpcode LOP_LOADB, 0, cond value 1 0, 0] ++
     writeVarInt 0 ++ writeVarInt 0 ++
     writeVarInt 0 ++ writeVarInt 0 ++ [0, 0])

/-- The payload `CreatePushNumber` writes between the header and the patch
(`Bytecode.cpp` lines 171-210); `bits` is the IEEE-754 bit pattern of the
`double` argument. -/
def numberPayload (bits : Nat) : List Nat :=
  writeVarInt 1 ++ [LBC_CONSTANT_NUMBER] ++ le64 bits ++
  writeVarInt 1 ++
  writeVarInt 1 ++ writeVarInt 0 ++ writeVarInt 0 ++ writeVarInt 0 ++
  writeVarInt 1 ++
  [encodeOpcode LOP_LOADN, 0, 0] ++
  writeVarInt 1 ++ writeVarInt 0 ++
  writeVarInt 0 ++ writeVarInt 0 ++ [0, 0]

/-- `CreatePushNumber` (`Bytecode.cpp` lines 162-218). -/
def CreatePushNumber (bits : Nat) : List Nat :=
  finalize (numberPayload bits)

/-- The payload `CreatePushString` writes between the header and the patch
(`Bytecode.cpp` lines 229-262); the `std::string` argument is its byte
sequence. -/
def stringPayload (value : List Nat) : List Nat :=
  writeVarInt 1 ++ [LBC_CONSTANT_STRING] ++ writeVarInt value.length ++ value ++
  writeVarInt 1 ++
  writeVarInt 1 ++ writeVarInt 0 ++ writeVarInt 0 ++ writeVarInt 0 ++
  writeVarInt 1 ++
  [encodeOpcode LOP_LOADK, 0, 0] ++
  writeVarInt 1 ++ writeVarInt 0 ++
  writeVarInt 0 ++ writeVarInt 0 ++ [0, 0]

/-- `CreatePushString` (`Bytecode.cpp` lines 220-270). -/
def CreatePushString (value : List Nat) : List Nat :=
  finalize (stringPayload value)

/-- `CreatePushTable` (`Bytecode.cpp` lines 274-322); the `int` size hints are
masked with `& 0xFF` and stored as single bytes, which for a C two's-complement
`int` is exactly `Int.emod _ 256`. -/
def CreatePushTable (arraySize hashSize : Int) : List Nat :=
  finalize
    (writeVarInt 0 ++ writeVarInt 1 ++
     writeVarInt 1 ++ writeVarInt 0 ++ writeVarInt 0 ++ writeVarInt 0 ++
     writeVarInt 1 ++
     [encodeOpcode LOP_NEWTABLE, 0, (arraySize % 256).toNat, (hashSize % 256).toNat] ++
     writeVarInt 0 ++ writeVarInt 0 ++
     writeVarInt 0 ++ writeVarInt 0 ++ [0, 0])

/-- The per-element `LOP_LOADK` loop of `CreatePushArray` (`Bytecode.cpp`
lines 364-368): element `i` is loaded into register `i+1` (a `uint8_t` cast)
from constant index `i` (a `uint8_t` cast). -/
def arrayLoads (n : Nat) : List Nat :=
  ((List.range n).map fun i => [encodeOpcode LOP_LOADK, (i + 1) % 256, i % 256]).flatten

/-- One string constant-pool entry: tag, varint length, raw bytes. -/
def strEntry (s : List Nat) : List Nat :=
  LBC_CONSTANT_STRING :: (writeVarInt s.length ++ s)

/-- `CreatePushArray` (`Bytecode.cpp` lines 324-394): empty input degenerates
to `CreatePushTable(0, 0)`. -/
def CreatePushArray (values : List (List Nat)) : List Nat :=
  if values = [] then CreatePushTable 0 0
  else
    finalize
      (writeVarInt values.length ++ (values.map strEntry).flatten ++
       writeVarInt 1 ++
       writeVarInt (1 + values.length) ++ writeVarInt 0 ++ writeVarInt 0 ++ writeVarInt 0 ++
       writeVarInt (values.length + 2) ++
       [encodeOpcode LOP_NEWTABLE, 0, values.length % 256, 0] ++
       arrayLoads values.length ++
       [encodeOpcode LOP_SETLIST, 0, values.length % 256, 0] ++
       writeVarInt values.length ++ writeVarInt 0 ++
       writeVarInt 0 ++ writeVarInt 0 ++ [0, 0])

/-- An element of `CreatePushMultiple`'s input, together with the outcome of
the classification pass (`Bytecode.cpp` lines 418-437): an element equal to
`"true"`/`"false"` becomes a boolean; otherwise an element that passes the
`strtod`-over-`c_str()` acceptance test (its bytes before the first NUL form
one numeric literal) becomes a number (carried as its IEEE-754 bit pattern,
the only data of it the encoder uses); every other element stays a string.
The encoder's output depends on the input only through this classification,
so it is taken as the embedded input type. -/
inductive MVal where
  | mbool (b : Bool)
  | mnum (bits : Nat)
  | mstr (s : List Nat)
deriving DecidableEq

/-- The numbers extracted by the classification pass, in order. -/
def numsOf (values : List MVal) : List Nat :=
  values.filterMap fun v => match v with | .mnum bits => some bits | _ => none

/-- The booleans extracted by the classification pass, in order. -/
def boolsOf (values : List MVal) : List Bool :=
  values.filterMap fun v => match v with | .mbool b => some b | _ => none

/-- The fallback strings extracted by the classification pass, in order. -/
def strsOf (values : List MVal) : List (List Nat) :=
  values.filterMap fun v => match v with | .mstr s => some s | _ => none

/-- One number constant-pool entry: tag then the 8 raw IEEE-754 bytes. -/
def numEntry (bits : Nat) : List Nat :=
  LBC_CONSTANT_NUMBER :: le64 bits

/-- One boolean constant-pool entry: tag then a 0/1 byte (`Bytecode.cpp`
lines 455-458; written even though `LOP_LOADB` carries the value inline). -/
def boolEntry (b : Bool) : List Nat :=
  [LBC_CONSTANT_BOOLEAN, cond b 1 0]

/-- The constant-pool section of `CreatePushMultiple` (`Bytecode.cpp`
lines 443-465): all numbers, then all booleans, then all strings. -/
def multiConstSection (values : List MVal) : List Nat :=
  ((numsOf values).map numEntry).flatten ++
  ((boolsOf values).map boolEntry).flatten ++
  ((strsOf values).map strEntry).flatten

/-- The instruction-generation loop of `CreatePushMultiple` (`Bytecode.cpp`
lines 480-500).  `base` is `numbers.size() + booleans.size()` (fixed for the
whole loop), `i` the element index (register), `nI`/`sI` the running
`numIdx`/`strIdx` counters; every operand byte is a `uint8_t` cast. -/
def emitLoads (base : Nat) : List MVal → Nat → Nat → Nat → List Nat
  | [], _, _, _ => []
  | .mbool b :: rest, i, nI, sI =>
      encodeOpcode LOP_LOADB :: i % 256 :: cond b 1 0 :: 0 ::
        emitLoads base rest (i + 1) nI sI
  | .mnum _ :: rest, i, nI, sI =>
      encodeOpcode LOP_LOADN :: i % 256 :: nI % 256 ::
        emitLoads base rest (i + 1) (nI + 1) sI
  | .mstr _ :: rest, i, nI, sI =>
      encodeOpcode LOP_LOADK :: i % 256 :: (base + sI) % 256 ::
        emitLoads base rest (i + 1) nI (sI + 1)

/-- Everything `CreatePushMultiple` writes after the constant pool
(`Bytecode.cpp` lines 467-512): function count, the proto fields
(`maxstacksize = values.size()`, instruction count `values.size()`), the
instruction stream, `sizeK = totalConstants`, `sizeP` and the debug tail. -/
def multiProtoSection (values : List MVal) : List Nat :=
  writeVarInt 1 ++
  writeVarInt values.length ++ writeVarInt 0 ++ writeVarInt 0 ++ writeVarInt 0 ++
  writeVarInt values.length ++
  emitLoads ((numsOf values).length + (boolsOf values).length) values 0 0 0 ++
  writeVarInt ((numsOf values).length + (boolsOf values).length + (strsOf values).length) ++
  writeVarInt 0 ++
  writeVarInt 0 ++ writeVarInt 0 ++ [0, 0]

/-- The payload written by `CreatePushMultiple` for a non-empty input
(`Bytecode.cpp` lines 439-512): the declared constant count is
`totalConstants = numbers.size() + booleans.size() + strings.size()`
(line 440), then the pool, then the proto section. -/
def multiPayload (values : List MVal) : List Nat :=
  writeVarInt ((numsOf values).length + (boolsOf values).length + (strsOf values).length) ++
  multiConstSection values ++ multiProtoSection values

/-- `CreatePushMultiple` (`Bytecode.cpp` lines 398-520): empty input
degenerates to `CreatePushNil`. -/
def CreatePushMultiple (values : List MVal) : List Nat :=
  if values = [] then CreatePushNil
  else finalize (multiPayload values)

/-- `ValidateBytecode` (`Bytecode.cpp` lines 606-629): rejects buffers shorter
than the 12-byte header, a version byte other than 2, a `size` field (bytes
8-11 of the packed header) different from the actual trailing payload length,
or a `hash` field (bytes 4-7) different from the recomputed checksum of the
`size` payload bytes (which, once the size check passed, are all of them). -/
def ValidateBytecode (bytecode : List Nat) : Bool :=
  if bytecode.length < 12 then false
  else if bytecode.getD 0 0 ≠ 2 then false
  else if read32 bytecode 8 ≠ bytecode.length - 12 then false
  else read32 bytecode 4 = hashBytecode (bytecode.drop 12)

/-- `std::string::substr(pos)`: throws `std::out_of_range` when
`pos > size()` (embedded as `none`), otherwise yields the suffix. -/
def substrFrom (l : List Nat) (pos : Nat) : Option (List Nat) :=
  if pos ≤ l.length then some (l.drop pos) else none

/-- `Decompress` (`Bytecode.cpp` lines 631-647): when the buffer is at least
16 bytes long and starts with the ASCII magic `"RBX2"`, it returns
`substr(sizeof(RobloxSignature))` = `substr(20)` (which throws — `none` —
when the buffer is 16 to 19 bytes long); otherwise the input unchanged. -/
def Decompress (signedBytecode : List Nat) : Option (List Nat) :=
  if 16 ≤ signedBytecode.length ∧
     signedBytecode.getD 0 0 = 82 ∧ signedBytecode.getD 1 0 = 66 ∧
     signedBytecode.getD 2 0 = 88 ∧ signedBytecode.getD 3 0 = 50 then
    substrFrom signedBytecode 20
  else
    some signedBytecode

/-- ASCII space classification of `isspace` in the C locale: `' '` and
`'\t'..'\r'` (9-13). -/
def isSpaceByte (c : Nat) : Bool := c = 32 || (9 ≤ c && c ≤ 13)

/-- ASCII decimal digit. -/
def isDigitByte (c : Nat) : Bool := 48 ≤ c && c ≤ 57

/-- ASCII hexadecimal digit. -/
def isHexDigitByte (c : Nat) : Bool :=
  (48 ≤ c && c ≤ 57) || (97 ≤ c && c ≤ 102) || (65 ≤ c && c ≤ 70)

/-- ASCII lower-casing of a byte (for `strtod`'s case-insensitive
`inf`/`nan` forms). -/
def toLowerByte (c : Nat) : Nat := if 65 ≤ c ∧ c ≤ 90 then c + 32 else c

/-- Drops one leading `+`/`-` sign byte if present. -/
def dropSignByte (l : List Nat) : List Nat :=
  match l with
  | c :: rest => if c = 43 ∨ c = 45 then rest else l
  | [] => []

/-- An optional sign followed by a non-empty run of decimal digits, consuming
the whole input (the exponent body of `strtod`'s decimal and hex forms). -/
def matchSignedDigits (l : List Nat) : Bool :=
  let l1 := dropSignByte l
  decide (l1 ≠ []) && l1.all fun c => isDigitByte c

/-- An optional `e`/`E` exponent part consuming the whole input. -/
def matchExpPart (l : List Nat) : Bool :=
  match l with
  | [] => true
  | c :: rest => (c = 101 || c = 69) && matchSignedDigits rest

/-- An optional `p`/`P` binary-exponent part consuming the whole input. -/
def matchPExpPart (l : List Nat) : Bool :=
  match l with
  | [] => true
  | c :: rest => (c = 112 || c = 80) && matchSignedDigits rest

/-- A decimal significand (digits with at most one `.`, at least one digit)
followed by an optional exponent, consuming the whole input. -/
def decMatch (l : List Nat) : Bool :=
  let d1 := l.takeWhile fun c => isDigitByte c
  let r1 := l.dropWhile fun c => isDigitByte c
  match r1 with
  | 46 :: r2 =>
      let d2 := r2.takeWhile fun c => isDigitByte c
      let r3 := r2.dropWhile fun c => isDigitByte c
      (decide (d1 ≠ []) || decide (d2 ≠ [])) && matchExpPart r3
  | _ => decide (d1 ≠ []) && matchExpPart r1

/-- A `0x`/`0X` hexadecimal significand followed by an optional binary
exponent, consuming the whole input. -/
def hexMatch (l : List Nat) : Bool :=
  match l with
  | 48 :: x :: rest =>
      (x = 120 || x = 88) &&
      (let h1 := rest.takeWhile fun c => isHexDigitByte c
       let r1 := rest.dropWhile fun c => isHexDigitByte c
       match r1 with
       | 46 :: r2 =>
           let h2 := r2.takeWhile fun c => isHexDigitByte c
           let r3 := r2.dropWhile fun c => isHexDigitByte c
           (decide (h1 ≠ []) || decide (h2 ≠ [])) && matchPExpPart r3
       | _ => decide (h1 ≠ []) && matchPExpPart r1)
  | _ => false

/-- Case-insensitive `inf` / `infinity`, consuming the whole input. -/
def infMatch (l : List Nat) : Bool :=
  let l0 := l.map toLowerByte
  decide (l0 = [105, 110, 102]) ||
  decide (l0 = [105, 110, 102, 105, 110, 105, 116, 121])

/-- A character allowed inside `nan(...)`: alphanumeric or underscore. -/
def isNanSeqByte (c : Nat) : Bool :=
  isDigitByte c || (97 ≤ c && c ≤ 122) || (65 ≤ c && c ≤ 90) || c = 95

/-- Case-insensitive `nan` or `nan(n-char-sequence)`, consuming the whole
input. -/
def nanMatch (l : List Nat) : Bool :=
  let l0 := l.map toLowerByte
  decide (l0 = [110, 97, 110]) ||
  (match l0 with
   | 110 :: 97 :: 110 :: 40 :: rest =>
       match rest.reverse with
       | 41 :: middle => middle.all fun c => isNanSeqByte c
       | _ => false
   | _ => false)

/-- Modelled from the spec: the byte sequence is exactly one non-empty
numeric literal as the C library's `strtod` delimits it.  `strtod` is
external library code; its subject-sequence grammar (C11 7.22.1.3) is
modelled here: optional whitespace, optional sign, then a decimal significand
with optional exponent, a hexadecimal significand with optional binary
exponent, or case-insensitive `inf(inity)`/`nan(...)`, with nothing left
over.  This is the grammar over a given run of bytes; the source's actual
acceptance test, which runs over a `c_str()` view, is `strtodTestOk`
below. -/
def strtodAccepts (l : List Nat) : Bool :=
  let l1 := l.dropWhile fun c => isSpaceByte c
  let l2 := dropSignByte l1
  decMatch l2 || hexMatch l2 || infMatch l2 || nanMatch l2

/-- Modelled from the spec: the acceptance test the source applies —
`strtod(value.c_str(), &end)` followed by
`end != value.c_str() && *end == '\0'` (`Bytecode.cpp` lines 428-430 and
949-951).  `c_str()` terminates the bytes at the first NUL, so `strtod` sees
only the bytes before the first 0 byte of `value`, and `*end == '\0'` holds
exactly when the parse stopped on a 0 byte — the embedded NUL when `value`
contains one, the appended terminator otherwise.  Hence the test passes iff
the bytes before the first NUL form one non-empty numeric literal; any bytes
after an embedded NUL are ignored. -/
def strtodTestOk (value : List Nat) : Bool :=
  strtodAccepts (value.takeWhile fun c => c != 0)

/-- Modelled from the spec: the IEEE-754 bit pattern of the `double` value the
C library's `strtod` returns for an accepted input.  The floating-point value
computation is external library behaviour and outside every claim proved in
this file (no theorem below inspects the bytes this produces), so it is left
as a fixed executable stand-in. -/
def strtodBits (l : List Nat) : Nat :=
  let _ := l
  0

/-- The byte sequence of `"return "`. -/
def returnPrefix : List Nat := [114, 101, 116, 117, 114, 110, 32]

/-- `Compile` (`Bytecode.cpp` lines 936-963): `source.find("return ") == 0`
means `source` starts with `"return "`; the remainder is checked against
`nil`, `true`, `false`, the `strtod` acceptance test `strtodTestOk` (which,
running over `c_str()`, also passes when an embedded NUL follows a numeral),
then a quoted string (first and last byte `'"'`, length at least 2, quotes
stripped by `substr(1, size-2)`); everything else falls back to
`CreatePushNil()`. -/
def Compile (source : List Nat) : List Nat :=
  if source.take 7 = returnPrefix then
    if source.drop 7 = [110, 105, 108] then CreatePushNil
    else if source.drop 7 = [116, 114, 117, 101] then CreatePushBoolean true
    else if source.drop 7 = [102, 97, 108, 115, 101] then CreatePushBoolean false
    else if strtodTestOk (source.drop 7) then CreatePushNumber (strtodBits (source.drop 7))
    else if 2 ≤ (source.drop 7).length ∧ (source.drop 7).getD 0 0 = 34 ∧
        (source.drop 7).getLast? = some 34 then
      CreatePushString (((source.drop 7).drop 1).dropLast)
    else CreatePushNil
  else CreatePushNil

/-- Little-endian base-128 varint reader (inverse of `writeVarInt`, used to
state what counts the encoded buffers declare): reads bytes while bit 7 is
set, accumulating 7 value bits per byte, and returns the decoded value and
the remaining bytes. -/
def decodeVarint : List Nat → Option (Nat × List Nat)
  | [] => none
  | b :: rest =>
      if b < 128 then some (b, rest)
      else
        match decodeVarint rest with
        | some (v, r) => some (b - 128 + 128 * v, r)
        | none => none

/-! ## Claim-side definitions

These are written from the wording of the specification's claims (not from
the source), to be compared against the embedded source functions above. -/

/-- The amended C2 claim, in the claim's own terms: a buffer of at least 20
bytes starting with `"RBX2"` loses exactly its first 20 bytes; a buffer of 16
to 19 bytes with that magic makes `Decompress` fail (`std::out_of_range`);
any other buffer is returned unchanged. -/
def DecompressSpec (l : List Nat) : Option (List Nat) :=
  if l.length < 16 then some l
  else if l.take 4 = [82, 66, 88, 50] then
    if 20 ≤ l.length then some (l.drop 20) else none
  else some l

/-- The input form the amended C6 claim says `Compile` recognizes: exactly
`return <literal>` where the literal is `nil`, `true`, `false`, a
fully-parseable numeric literal as the source's `strtod`-over-`c_str()` test
delimits it (the bytes before the first NUL form one non-empty numeric
literal, bytes after an embedded NUL being ignored), or a double-quoted
string. -/
def recognizedForm (source : List Nat) : Bool :=
  decide (source.take 7 = returnPrefix) &&
  (let v := source.drop 7
   decide (v = [110, 105, 108]) ||
   decide (v = [116, 114, 117, 101]) ||
   decide (v = [102, 97, 108, 115, 101]) ||
   strtodTestOk v ||
   (decide (2 ≤ v.length) && decide (v.getD 0 0 = 34) && decide (v.getLast? = some 34)))

/-- Number of instruction-stream bytes `CreatePushMultiple` emits for one
element: `LOP_LOADB` is opcode + 3 operand bytes, `LOP_LOADN`/`LOP_LOADK`
are opcode + 2 operand bytes. -/
def instrWidth : MVal → Nat
  | .mbool _ => 4
  | .mnum _ => 3
  | .mstr _ => 3

/-- Byte offset of element `j`'s instruction inside `CreatePushMultiple`'s
instruction stream. -/
def instrOffset (values : List MVal) (j : Nat) : Nat :=
  ((values.take j).map instrWidth).sum

/-- The instruction `CreatePushMultiple` emits for element `j`, extracted
from its instruction stream. -/
def instrFor (values : List MVal) (j : Nat) : List Nat :=
  ((emitLoads ((numsOf values).length + (boolsOf values).length) values 0 0 0).drop
      (instrOffset values j)).take
    (match values[j]? with
     | some v => instrWidth v
     | none => 0)

/-- The C1/C5 header-field reading: the `size` field occupies bytes 8-11 and
the `hash` field bytes 4-7 of a produced buffer, little-endian. -/
def sizeField (buf : List Nat) : Nat := read32 buf 8

/-- The checksum field of a produced buffer (bytes 4-7, little-endian). -/
def hashField (buf : List Nat) : Nat := read32 buf 4

/-- The amended C1 claim's layout: a produced buffer starts with the bytes
`version=2, flags=0, typesize=8, numbersize=8`, then the little-endian
`hash` field (checksum of the first `(length-12) mod 2^32` payload bytes) at
offsets 4-7, then the little-endian `size` field (`length - 12`) at
offsets 8-11, with the payload following immediately (no padding). -/
def headerLayout (buf : List Nat) : Prop :=
  buf.take 12 =
    2 :: 0 :: 8 :: 8 ::
      (le32 (hashBytecode ((buf.drop 12).take ((buf.length - 12) % U32))) ++
       le32 (buf.length - 12))

/-- The amended C5 claim: the `size` field holds `(length - 12) mod 2^32` and
the `hash` field holds the checksum of the first `size` bytes of the payload
(for buffers under `2^32 + 12` bytes: exactly `length - 12` and the checksum
of the whole payload). -/
def sizeHashFields (buf : List Nat) : Prop :=
  sizeField buf = (buf.length - 12) % U32 ∧
  hashField buf = hashBytecode ((buf.drop 12).take (sizeField buf))

/-- The 2^32-byte string used to exhibit the `uint32_t` wraparound of the
header `size` field. -/
def bigString : List Nat := List.replicate U32 0

/-! ## Supporting lemmas -/

theorem writeVarIntGo_length_le (fuel value : Nat) :
    (writeVarIntGo fuel value).length ≤ fuel + 1 := by
  induction fuel generalizing value with
  | zero => simp [writeVarIntGo]
  | succ n ih =>
      simp only [writeVarIntGo]
      split
      · simp
      · simpa using Nat.succ_le_succ (ih (value / 128))

theorem writeVarInt_length_le (value : Nat) : (writeVarInt value).length ≤ 6 :=
  writeVarIntGo_length_le 5 (value % U32)

theorem decodeVarint_writeVarIntGo (fuel : Nat) :
    ∀ value t, value < 128 ^ (fuel + 1) →
      decodeVarint (writeVarIntGo fuel value ++ t) = some (value, t) := by
  induction fuel with
  | zero =>
      intro value t h
      have hv : value % 128 = value := Nat.mod_eq_of_lt (by simpa using h)
      simp [writeVarIntGo, decodeVarint, hv, Nat.mod_lt, show value < 128 by simpa using h]
  | succ n ih =>
      intro value t h
      simp only [writeVarIntGo]
      split
      next hz =>
        have hlt : value < 128 := by omega
        simp [decodeVarint, hlt, Nat.mod_eq_of_lt hlt]
      next hz =>
        have hrest : value / 128 < 128 ^ (n + 1) := by
          apply Nat.div_lt_of_lt_mul
          calc value < 128 ^ (n + 1 + 1) := h
            _ = 128 * 128 ^ (n + 1) := by ring
        have ihr := ih (value / 128) t hrest
        simp only [List.cons_append, decodeVarint]
        have hge : ¬ value % 128 + 128 < 128 := by omega
        simp [hge, ihr]
        omega

theorem decodeVarint_writeVarInt_append (value : Nat) (t : List Nat) :
    decodeVarint (writeVarInt value ++ t) = some (value % U32, t) := by
  apply decodeVarint_writeVarIntGo
  calc value % U32 < U32 := Nat.mod_lt _ (by norm_num [U32])
    _ < 128 ^ 6 := by norm_num [U32]

theorem hashBytecode_lt (data : List Nat) : hashBytecode data < U32 := by
  have general : ∀ (l : List Nat) (h : Nat), h < U32 →
      l.foldl (fun h b => ((h ^^^ b) * 16777619) % U32) h < U32 := by
    intro l
    induction l with
    | nil => intro h hh; simpa using hh
    | cons b rest ih =>
        intro h hh
        simpa using ih _ (Nat.mod_lt _ (by norm_num [U32]))
  exact general data 2166136261 (by norm_num [U32])

theorem le32val_le32_append (n : Nat) (rest : List Nat) :
    le32val (le32 n ++ rest) = n % U32 := by
  simp only [le32, le32val, List.cons_append, List.nil_append,
    List.getD_cons_zero, List.getD_cons_succ, U32]
  omega

theorem le32_mod (n : Nat) : le32 (n % U32) = le32 n := by
  simp only [le32, U32, List.cons.injEq, and_true]
  refine ⟨by omega, by omega, by omega, by omega⟩

theorem finalize_length (payload : List Nat) :
    (finalize payload).length = payload.length + 12 := by
  simp [finalize, le32]

theorem finalize_drop12 (payload : List Nat) :
    (finalize payload).drop 12 = payload := rfl

theorem finalize_getD0 (payload : List Nat) :
    (finalize payload).getD 0 0 = 2 := rfl

theorem finalize_take12 (payload : List Nat) :
    (finalize payload).take 12 =
      2 :: 0 :: 8 :: 8 ::
        (le32 (hashBytecode (payload.take (payload.length % U32))) ++
         le32 (payload.length % U32)) := rfl

theorem read32_finalize_8 (payload : List Nat) :
    read32 (finalize payload) 8 = payload.length % U32 := by
  have : (finalize payload).drop 8 = le32 (payload.length % U32) ++ payload := rfl
  simp [read32, this, le32val_le32_append, Nat.mod_mod_of_dvd]

theorem read32_finalize_4 (payload : List Nat) :
    read32 (finalize payload) 4 =
      hashBytecode (payload.take (payload.length % U32)) := by
  have hdrop : (finalize payload).drop 4 =
      le32 (hashBytecode (payload.take (payload.length % U32))) ++
        (le32 (payload.length % U32) ++ payload) := rfl
  simp [read32, hdrop, le32val_le32_append,
    Nat.mod_eq_of_lt (hashBytecode_lt _)]

theorem validate_finalize (payload : List Nat) (h : payload.length < U32) :
    ValidateBytecode (finalize payload) = true := by
  have hmod : payload.length % U32 = payload.length := Nat.mod_eq_of_lt h
  unfold ValidateBytecode
  rw [finalize_length, read32_finalize_8, read32_finalize_4, finalize_drop12,
    finalize_getD0, hmod, List.take_length]
  rw [if_neg (by omega), if_neg (by simp), if_neg (by omega)]
  simp

theorem headerLayout_finalize (payload : List Nat) :
    headerLayout (finalize payload) := by
  unfold headerLayout
  rw [finalize_length, finalize_drop12]
  have h1 : payload.length + 12 - 12 = payload.length := by omega
  rw [h1, finalize_take12, le32_mod]

theorem sizeHashFields_finalize (payload : List Nat) :
    sizeHashFields (finalize payload) := by
  unfold sizeHashFields sizeField hashField
  rw [finalize_length, finalize_drop12, read32_finalize_8, read32_finalize_4]
  have h1 : payload.length + 12 - 12 = payload.length := by omega
  rw [h1]
  exact ⟨rfl, rfl⟩

theorem writeVarInt_zero : writeVarInt 0 = [0] := rfl

theorem writeVarInt_one : writeVarInt 1 = [1] := rfl

theorem writeVarInt_U32 : writeVarInt U32 = [0] := rfl

theorem stringPayload_length (s : List Nat) :
    (stringPayload s).length = 17 + (writeVarInt s.length).length + s.length := by
  simp [stringPayload, writeVarInt_zero, writeVarInt_one]
  omega

theorem numberPayload_length (bits : Nat) : (numberPayload bits).length = 25 := by
  simp [numberPayload, writeVarInt_zero, writeVarInt_one, le64]

theorem bigString_length : bigString.length = U32 := by
  simp [bigString]

theorem stringPayload_bigString_length :
    (stringPayload bigString).length = U32 + 18 := by
  rw [stringPayload_length, bigString_length, writeVarInt_U32]
  simp
  omega

/-- Every element of a `CreatePushMultiple` input lands in exactly one of the
three classification buckets, so `totalConstants` equals the element count. -/
theorem classify_count (values : List MVal) :
    (numsOf values).length + (boolsOf values).length + (strsOf values).length =
      values.length := by
  induction values with
  | nil => simp [numsOf, boolsOf, strsOf]
  | cons v rest ih =>
      cases v <;> simp [numsOf, boolsOf, strsOf, List.filterMap_cons] at ih ⊢ <;> omega

theorem numsOf_mbool (b : Bool) (l : List MVal) :
    numsOf (.mbool b :: l) = numsOf l := by simp [numsOf, List.filterMap_cons]

theorem numsOf_mnum (bits : Nat) (l : List MVal) :
    numsOf (.mnum bits :: l) = bits :: numsOf l := by simp [numsOf, List.filterMap_cons]

theorem numsOf_mstr (s : List Nat) (l : List MVal) :
    numsOf (.mstr s :: l) = numsOf l := by simp [numsOf, List.filterMap_cons]

theorem strsOf_mbool (b : Bool) (l : List MVal) :
    strsOf (.mbool b :: l) = strsOf l := by simp [strsOf, List.filterMap_cons]

theorem strsOf_mnum (bits : Nat) (l : List MVal) :
    strsOf (.mnum bits :: l) = strsOf l := by simp [strsOf, List.filterMap_cons]

theorem strsOf_mstr (s : List Nat) (l : List MVal) :
    strsOf (.mstr s :: l) = s :: strsOf l := by simp [strsOf, List.filterMap_cons]

/-- Characterization of the instruction `emitLoads` emits for element `j`,
for arbitrary register/`numIdx`/`strIdx` accumulators. -/
theorem emitLoads_take_drop (base : Nat) :
    ∀ (vs : List MVal) (j i nI sI : Nat) (v : MVal), vs[j]? = some v →
      ((emitLoads base vs i nI sI).drop (((vs.take j).map instrWidth).sum)).take
          (instrWidth v) =
        (match v with
         | .mbool b => [encodeOpcode LOP_LOADB, (i + j) % 256, cond b 1 0, 0]
         | .mnum _ => [encodeOpcode LOP_LOADN, (i + j) % 256,
             (nI + (numsOf (vs.take j)).length) % 256]
         | .mstr _ => [encodeOpcode LOP_LOADK, (i + j) % 256,
             (base + sI + (strsOf (vs.take j)).length) % 256]) := by
  intro vs
  induction vs with
  | nil => intro j i nI sI v hv; simp at hv
  | cons w rest ih =>
      intro j i nI sI v hv
      cases j with
      | zero =>
          have hw : v = w := by simpa using hv.symm
          subst hw
          cases v <;>
            simp [emitLoads, instrWidth, numsOf, strsOf, List.filterMap_nil]
      | succ k =>
          have hv' : rest[k]? = some v := by simpa using hv
          cases w with
          | mbool b =>
              have step := ih k (i + 1) nI sI v hv'
              have hsum : (((MVal.mbool b :: rest).take (k + 1)).map instrWidth).sum =
                  4 + ((rest.take k).map instrWidth).sum := by
                simp [instrWidth]
              rw [hsum]
              simp only [emitLoads]
              rw [← List.drop_drop]
              rw [show i + (k + 1) = i + 1 + k from by omega]
              rw [List.take_succ_cons, numsOf_mbool, strsOf_mbool]
              exact step
          | mnum bits0 =>
              have step := ih k (i + 1) (nI + 1) sI v hv'
              have hsum : (((MVal.mnum bits0 :: rest).take (k + 1)).map instrWidth).sum =
                  3 + ((rest.take k).map instrWidth).sum := by
                simp [instrWidth]
              rw [hsum]
              simp only [emitLoads]
              rw [← List.drop_drop]
              rw [show i + (k + 1) = i + 1 + k from by omega]
              rw [List.take_succ_cons, numsOf_mnum, strsOf_mnum]
              have harith : nI + (bits0 :: numsOf (rest.take k)).length =
                  nI + 1 + (numsOf (rest.take k)).length := by
                simp
                omega
              rw [harith]
              exact step
          | mstr s0 =>
              have step := ih k (i + 1) nI (sI + 1) v hv'
              have hsum : (((MVal.mstr s0 :: rest).take (k + 1)).map instrWidth).sum =
                  3 + ((rest.take k).map instrWidth).sum := by
                simp [instrWidth]
              rw [hsum]
              simp only [emitLoads]
              rw [← List.drop_drop]
              rw [show i + (k + 1) = i + 1 + k from by omega]
              rw [List.take_succ_cons, numsOf_mstr, strsOf_mstr]
              have harith : base + sI + (s0 :: strsOf (rest.take k)).length =
                  base + (sI + 1) + (strsOf (rest.take k)).length := by
                simp
                omega
              rw [harith]
              exact step

theorem take4_eq_iff (l : List Nat) (h : 4 ≤ l.length) (p q r s : Nat) :
    l.take 4 = [p, q, r, s] ↔
      l.getD 0 0 = p ∧ l.getD 1 0 = q ∧ l.getD 2 0 = r ∧ l.getD 3 0 = s := by
  match l, h with
  | a :: b :: c :: d :: rest, _ =>
      simp [List.getD_cons_zero, List.getD_cons_succ]

/-! ## Claim theorems -/

set_option maxRecDepth 100000

/-- C1, counterexample.  The claim puts the `size` field (payload length) at
byte offsets 4-7 and the `hash` field at offsets 8-11; in the buffer
`CreatePushNil()` actually produces, the 32-bit value at offsets 4-7 is the
checksum (3753095333), not the payload length (15), and the value at offsets
8-11 is the payload length: the struct `LuauBytecodeHeader` declares `hash`
before `size`, the reverse of the claimed order. -/
theorem c1_size_hash_order_cex :
    read32 CreatePushNil 4 ≠ CreatePushNil.length - 12 ∧
    read32 CreatePushNil 8 = CreatePushNil.length - 12 ∧
    read32 CreatePushNil 4 = hashBytecode (CreatePushNil.drop 12) := by
  refine ⟨by decide, by decide, by decide⟩

/-- C1, amended: in every buffer the encoder produces the header is laid out
as version (u8), flags (u8), typesize (u8), numbersize (u8), then the hash
(u32 checksum) at byte offsets 4-7, then the size (u32 payload length) at
byte offsets 8-11, all little-endian with no padding. -/
theorem c1_header_layout :
    headerLayout CreatePushNil ∧
    (∀ b, headerLayout (CreatePushBoolean b)) ∧
    (∀ bits, headerLayout (CreatePushNumber bits)) ∧
    (∀ s, headerLayout (CreatePushString s)) ∧
    (∀ a h, headerLayout (CreatePushTable a h)) ∧
    (∀ vs, headerLayout (CreatePushArray vs)) ∧
    (∀ vs, headerLayout (CreatePushMultiple vs)) := by
  refine ⟨headerLayout_finalize _, fun b => headerLayout_finalize _,
    fun bits => headerLayout_finalize _, fun s => headerLayout_finalize _,
    fun a h => headerLayout_finalize _, fun vs => ?_, fun vs => ?_⟩
  · unfold CreatePushArray
    split
    · exact headerLayout_finalize _
    · exact headerLayout_finalize _
  · unfold CreatePushMultiple
    split
    · exact headerLayout_finalize _
    · exact headerLayout_finalize _

/-- C2, counterexample.  On a 16-byte buffer starting with `"RBX2"`, the
claim says `Decompress` succeeds and removes the first 20 bytes; the code
calls `substr(20)` on a 16-byte string, which throws `std::out_of_range`
(embedded as `none`), so `Decompress` is not total. -/
theorem c2_short_wrapper_cex :
    Decompress ([82, 66, 88, 50] ++ List.replicate 12 0) = none ∧
    Decompress ([82, 66, 88, 50] ++ List.replicate 12 0) ≠
      some (([82, 66, 88, 50] ++ List.replicate 12 0).drop 20) := by
  refine ⟨by decide, by decide⟩

/-- C2, amended: `Decompress` returns the buffer with exactly its first 20
bytes removed when the buffer is at least 20 bytes and starts with `"RBX2"`;
it fails (`std::out_of_range` from `substr(20)`) when the buffer is 16 to 19
bytes long and starts with that magic; and it returns every other buffer
unchanged. -/
theorem c2_decompress_characterization :
    ∀ l, Decompress l = DecompressSpec l := by
  intro l
  by_cases h16 : 16 ≤ l.length
  · by_cases hm : l.take 4 = [82, 66, 88, 50]
    · have hg := (take4_eq_iff l (by omega) 82 66 88 50).mp hm
      have hcond : 16 ≤ l.length ∧ l.getD 0 0 = 82 ∧ l.getD 1 0 = 66 ∧
          l.getD 2 0 = 88 ∧ l.getD 3 0 = 50 :=
        ⟨h16, hg.1, hg.2.1, hg.2.2.1, hg.2.2.2⟩
      unfold Decompress DecompressSpec substrFrom
      rw [if_pos hcond, if_neg (show ¬ l.length < 16 by omega), if_pos hm]
    · have hcond : ¬ (16 ≤ l.length ∧ l.getD 0 0 = 82 ∧ l.getD 1 0 = 66 ∧
          l.getD 2 0 = 88 ∧ l.getD 3 0 = 50) := by
        intro hcon
        exact hm ((take4_eq_iff l (by omega) 82 66 88 50).mpr
          ⟨hcon.2.1, hcon.2.2.1, hcon.2.2.2.1, hcon.2.2.2.2⟩)
      unfold Decompress DecompressSpec
      rw [if_neg hcond, if_neg (show ¬ l.length < 16 by omega), if_neg hm]
  · have hcond : ¬ (16 ≤ l.length ∧ l.getD 0 0 = 82 ∧ l.getD 1 0 = 66 ∧
        l.getD 2 0 = 88 ∧ l.getD 3 0 = 50) := fun hcon => h16 hcon.1
    unfold Decompress DecompressSpec
    rw [if_neg hcond, if_pos (show l.length < 16 by omega)]

/-- C3: the claim (and the spec's data model, `maxstacksize ≥ highest
register used + 1`) is violated by `CreatePushNil()`: the encoded proto's
`maxstacksize` varint (byte 14 of the buffer) is 0, yet its single `LOADNIL`
instruction (encoded opcode at byte 19) addresses register 0 (byte 20), which
requires `maxstacksize ≥ 0 + 1`.  Every other listed builder writes a
sufficient `maxstacksize`, so the code, not the claim, is at fault here. -/
theorem c3_pushnil_maxstacksize_bug :
    CreatePushNil[14]? = some 0 ∧
    CreatePushNil[19]? = some (encodeOpcode LOP_LOADNIL) ∧
    CreatePushNil[20]? = some 0 ∧
    ¬ (0 + 1 ≤ 0) := by
  refine ⟨by decide, by decide, by decide, by decide⟩

/-- C7: the opcode transform `f(x) = (x*227) mod 256` used by `encodeOpcode`
is a bijection on bytes — distinct inputs give distinct outputs — and it is
inverted by multiplying by 203, the modular inverse of 227 modulo 256
(`227 * 203 ≡ 1 (mod 256)`). -/
theorem c7_opcode_transform_bijective :
    (∀ x y : Fin 256, x ≠ y → encodeOpcode x.val ≠ encodeOpcode y.val) ∧
    (∀ x : Fin 256, encodeOpcode x.val * 203 % 256 = x.val) ∧
    227 * 203 % 256 = 1 := by
  have hinv : ∀ x : Fin 256, encodeOpcode x.val * 203 % 256 = x.val := by decide
  refine ⟨?_, hinv, by norm_num⟩
  intro x y hxy henc
  apply hxy
  have hx := hinv x
  have hy := hinv y
  rw [henc, hy] at hx
  exact Fin.ext hx.symm

/-- C7 witness: the bijectivity at the concrete pair 0 ≠ 1. -/
theorem c7_opcode_transform_bijective_witness :
    encodeOpcode (0 : Fin 256).val ≠ encodeOpcode (1 : Fin 256).val :=
  c7_opcode_transform_bijective.1 0 1 (by decide)

/-- C8: for `CreatePushNumber(3.14159)` (IEEE-754 bit pattern
`0x400921F9F01B866E`, whose little-endian bytes are
`[110, 134, 27, 240, 249, 33, 9, 64]`): the buffer's version byte is 2; the
payload declares exactly one constant (varint 1 at byte 12), tagged Number
(tag 2 at byte 13) with exactly those 8 raw bytes; the instruction count is 1
(byte 27) and the single instruction is the load-from-constant
`LOP_LOADN` with register 0 and constant index 0 (bytes 28-30); `sizeK` is 1;
and `ValidateBytecode` accepts the buffer. -/
theorem c8_pushnumber_scenario :
    le64 4614256650576692846 = [110, 134, 27, 240, 249, 33, 9, 64] ∧
    CreatePushNumber 4614256650576692846 =
      [2, 0, 8, 8, 195, 219, 204, 178, 25, 0, 0, 0,
       1, LBC_CONSTANT_NUMBER, 110, 134, 27, 240, 249, 33, 9, 64,
       1, 1, 0, 0, 0, 1, encodeOpcode LOP_LOADN, 0, 0, 1, 0, 0, 0, 0, 0] ∧
    ValidateBytecode (CreatePushNumber 4614256650576692846) = true := by
  refine ⟨by decide, by decide, by decide⟩

/-- C10: `CreatePushTable` encodes only the low 8 bits of each `int` size
hint (`& 0xFF`), so its output only depends on the arguments modulo 256; in
particular `CreatePushTable(256, 0)` is byte-identical to
`CreatePushTable(0, 0)`. -/
theorem c10_table_size_truncation :
    (∀ arraySize hashSize : Int,
      CreatePushTable arraySize hashSize =
        CreatePushTable (arraySize % 256) (hashSize % 256)) ∧
    CreatePushTable 256 0 = CreatePushTable 0 0 := by
  constructor
  · intro a h
    unfold CreatePushTable
    rw [Int.emod_emod_of_dvd a dvd_rfl, Int.emod_emod_of_dvd h dvd_rfl]
  · decide

/-- C4, counterexample.  `ValidateBytecode` rejects the buffer built from a
2^32-byte string: the `uint32_t` header `size` field wraps
(`header.size = (2^32 + 18) mod 2^32 = 18`) and no longer matches the actual
payload length, so `ValidateBytecode(CreatePushString(s))` is not true for
every string argument. -/
theorem c4_validate_overflow_cex :
    ValidateBytecode (CreatePushString bigString) = false := by
  have hP : (stringPayload bigString).length = U32 + 18 :=
    stringPayload_bigString_length
  unfold CreatePushString ValidateBytecode
  rw [finalize_length, read32_finalize_8, finalize_getD0, hP]
  rw [if_neg (by omega), if_neg (by simp)]
  rw [if_pos (show (U32 + 18) % U32 ≠ U32 + 18 + 12 - 12 by
    simp only [U32]; omega)]

/-- C4, amended: for every supported literal kind K (Nil, Boolean, Number,
String), `ValidateBytecode(CreatePushK(...))` returns true for every argument
value — for String provided the string keeps the payload under the 2^32-byte
capacity of the `uint32_t` size field (any string shorter than `2^32 - 64`
bytes). -/
theorem c4_validate_literal_builders :
    ValidateBytecode CreatePushNil = true ∧
    (∀ b, ValidateBytecode (CreatePushBoolean b) = true) ∧
    (∀ bits, ValidateBytecode (CreatePushNumber bits) = true) ∧
    (∀ s : List Nat, s.length < U32 - 64 →
      ValidateBytecode (CreatePushString s) = true) := by
  refine ⟨by decide, ?_, ?_, ?_⟩
  · intro b
    cases b <;> decide
  · intro bits
    apply validate_finalize
    rw [numberPayload_length]
    norm_num [U32]
  · intro s hs
    apply validate_finalize
    rw [stringPayload_length]
    have hv := writeVarInt_length_le s.length
    simp only [U32] at hs ⊢
    omega

/-- C4 witness: the String case at the concrete string `"hi"`. -/
theorem c4_validate_literal_builders_witness :
    ([104, 105] : List Nat).length < U32 - 64 ∧
    ValidateBytecode (CreatePushString [104, 105]) = true :=
  ⟨by decide, c4_validate_literal_builders.2.2.2 [104, 105] (by decide)⟩

/-- C5, counterexample.  For the buffer built from a 2^32-byte string the
header `size` field holds `(length - 12) mod 2^32 = 18`, not `length - 12`:
`header.size == buffer.size() - sizeof(Header)` fails once the payload
reaches the 32-bit field's capacity. -/
theorem c5_size_overflow_cex :
    sizeField (CreatePushString bigString) ≠
      (CreatePushString bigString).length - 12 := by
  unfold sizeField
  have ha : read32 (CreatePushString bigString) 8 = 18 := by
    unfold CreatePushString
    rw [read32_finalize_8, stringPayload_bigString_length]
    simp only [U32]
  have hb : (CreatePushString bigString).length = U32 + 30 := by
    unfold CreatePushString
    rw [finalize_length, stringPayload_bigString_length]
  rw [ha, hb]
  simp only [U32]
  omega

/-- C5, amended: for every buffer the encoder produces, `header.size` equals
`(buffer length - header size) mod 2^32` and `header.hash` equals the
FNV-1a-variant checksum (seed 2166136261, per byte XOR then multiply by
16777619 with 32-bit wraparound) of the first `header.size` payload bytes —
for buffers under `2^32 + 12` bytes exactly `length - 12` and the checksum of
the whole payload. -/
theorem c5_header_size_hash :
    sizeHashFields CreatePushNil ∧
    (∀ b, sizeHashFields (CreatePushBoolean b)) ∧
    (∀ bits, sizeHashFields (CreatePushNumber bits)) ∧
    (∀ s, sizeHashFields (CreatePushString s)) ∧
    (∀ a h, sizeHashFields (CreatePushTable a h)) ∧
    (∀ vs, sizeHashFields (CreatePushArray vs)) ∧
    (∀ vs, sizeHashFields (CreatePushMultiple vs)) := by
  refine ⟨sizeHashFields_finalize _, fun b => sizeHashFields_finalize _,
    fun bits => sizeHashFields_finalize _, fun s => sizeHashFields_finalize _,
    fun a h => sizeHashFields_finalize _, fun vs => ?_, fun vs => ?_⟩
  · unfold CreatePushArray
    split
    · exact sizeHashFields_finalize _
    · exact sizeHashFields_finalize _
  · unfold CreatePushMultiple
    split
    · exact sizeHashFields_finalize _
    · exact sizeHashFields_finalize _

/-- C6, counterexample.  The input `"return 1\0x"` (an embedded NUL byte
after the numeral) is not of the claimed form — its remainder `1\0x` is not,
as a byte string, a fully-parseable numeric literal (nor any other listed
literal) — yet `Compile` does not fall back to `CreatePushNil()`: the
source's test `end != s && *end == '\0'` runs over `value.c_str()`, `strtod`
parses the `1` and stops on the embedded NUL, so the test passes and a
number-producing buffer (37 bytes, against 27 for the nil buffer) is
returned. -/
theorem c6_embedded_nul_cex :
    strtodAccepts [49, 0, 120] = false ∧
    Compile ([114, 101, 116, 117, 114, 110, 32] ++ [49, 0, 120]) =
      CreatePushNumber (strtodBits [49, 0, 120]) ∧
    Compile ([114, 101, 116, 117, 114, 110, 32] ++ [49, 0, 120]) ≠
      CreatePushNil := by
  refine ⟨by decide, by decide, by decide⟩

/-- C6, amended: `Compile` recognizes only inputs of the exact form
`return <literal>` with literal `nil`, `true`, `false`, a numeric literal as
the source's `strtod`-over-`c_str()` test delimits it (the remainder's bytes
before the first NUL form one non-empty numeric literal; bytes after an
embedded NUL are ignored), or a double-quoted string; every input not of
that form — empty input, partial matches, unsupported literals — yields
exactly the `CreatePushNil()` buffer. -/
theorem c6_compile_fallback (source : List Nat)
    (h : recognizedForm source = false) :
    Compile source = CreatePushNil := by
  unfold Compile
  split_ifs with h1 h2 h3 h4 h5 h6
  · rfl
  · exfalso; simp [recognizedForm, h1, h3] at h
  · exfalso; simp [recognizedForm, h1, h4] at h
  · exfalso; simp [recognizedForm, h1, h5] at h
  · exfalso
    simp only [recognizedForm] at h
    simp_all
  · rfl
  · rfl

/-- C6 witness: the fallback at the concrete input `"garbage"`. -/
theorem c6_compile_fallback_witness :
    recognizedForm [103, 97, 114, 98, 97, 103, 101] = false ∧
    Compile [103, 97, 114, 98, 97, 103, 101] = CreatePushNil :=
  ⟨by decide, c6_compile_fallback _ (by decide)⟩

/-- C9, counterexample.  With 257 string elements, the load instruction for
the 257th string element (element index 256) carries the constant-index
operand byte `(0 + 0 + 256) mod 256 = 0` — the operand is a `uint8_t` cast —
not the claimed index 256: byte 2 of that instruction, and equally byte 1563
of the produced buffer, is 0. -/
theorem c9_index_truncation_cex :
    (instrFor (List.replicate 257 (MVal.mstr [97])) 256)[2]? = some 0 ∧
    (CreatePushMultiple (List.replicate 257 (MVal.mstr [97])))[1563]? = some 0 ∧
    (0 : Nat) ≠ 0 + 0 + 256 := by
  refine ⟨by decide, by decide, by decide⟩

/-- C9, amended: for every non-empty input, the buffer declares a constant
count equal to the number of input elements (all three categories are pooled,
booleans included, even though `LOADB` carries its value inline and so no
boolean pool entry is referenced by any instruction — the boolean element's
whole instruction is `[LOADB, reg, value, 0]` with no constant operand); a
numeric element's instruction references constant index
`(position among numbers) mod 256`; and a string element's load instruction
references constant index `(number of numeric elements + number of boolean
elements + position among string elements) mod 256` — the `mod 256` because
the operand is a single `uint8_t` byte. -/
theorem c9_multiple_pool_layout (vs : List MVal) (hne : vs ≠ []) :
    decodeVarint ((CreatePushMultiple vs).drop 12) =
      some (((numsOf vs).length + (boolsOf vs).length + (strsOf vs).length) % U32,
        multiConstSection vs ++ multiProtoSection vs) ∧
    (numsOf vs).length + (boolsOf vs).length + (strsOf vs).length = vs.length ∧
    multiConstSection vs =
      ((numsOf vs).map numEntry).flatten ++ ((boolsOf vs).map boolEntry).flatten ++
        ((strsOf vs).map strEntry).flatten ∧
    (∀ j b, vs[j]? = some (.mbool b) →
      instrFor vs j = [encodeOpcode LOP_LOADB, j % 256, cond b 1 0, 0]) ∧
    (∀ j bits, vs[j]? = some (.mnum bits) →
      instrFor vs j =
        [encodeOpcode LOP_LOADN, j % 256, (numsOf (vs.take j)).length % 256]) ∧
    (∀ j s, vs[j]? = some (.mstr s) →
      instrFor vs j =
        [encodeOpcode LOP_LOADK, j % 256,
          ((numsOf vs).length + (boolsOf vs).length +
            (strsOf (vs.take j)).length) % 256]) := by
  refine ⟨?_, classify_count vs, rfl, ?_, ?_, ?_⟩
  · unfold CreatePushMultiple
    rw [if_neg hne, finalize_drop12]
    unfold multiPayload
    rw [List.append_assoc]
    exact decodeVarint_writeVarInt_append _ _
  · intro j b hj
    unfold instrFor instrOffset
    rw [hj]
    have hlemma := emitLoads_take_drop
      ((numsOf vs).length + (boolsOf vs).length) vs j 0 0 0 _ hj
    simpa using hlemma
  · intro j bits hj
    unfold instrFor instrOffset
    rw [hj]
    have hlemma := emitLoads_take_drop
      ((numsOf vs).length + (boolsOf vs).length) vs j 0 0 0 _ hj
    simpa using hlemma
  · intro j s hj
    unfold instrFor instrOffset
    rw [hj]
    have hlemma := emitLoads_take_drop
      ((numsOf vs).length + (boolsOf vs).length) vs j 0 0 0 _ hj
    simpa using hlemma

/-- C9 witness: the layout at the concrete input
`[number, boolean, string]` — the string element (index 2) loads constant
index `1 + 1 + 0 = 2`. -/
theorem c9_multiple_pool_layout_witness :
    ([MVal.mnum 0, MVal.mbool true, MVal.mstr [97]] : List MVal) ≠ [] ∧
    instrFor [MVal.mnum 0, MVal.mbool true, MVal.mstr [97]] 2 =
      [encodeOpcode LOP_LOADK, 2 % 256, 2 % 256] :=
  ⟨by decide,
    (c9_multiple_pool_layout _ (by decide)).2.2.2.2.2 2 [97] (by decide)⟩

end Tsunami
